import Mathlib

/-!
# User management view: state handlers, pagination and the user form

A shallow embedding of `src/App.js`.  The two stateful React components
(`App` and `UserForm`) become state records with one function per handler.

Modelling conventions:

* An `async` handler awaits one HTTP call and then applies one `setState`.
  The handler is embedded as a function of the state the update is applied to
  (`prevState`), the handler's argument and the `Outcome` of the awaited call
  (`resolved` runs the rest of the `try` block, `rejected` runs `catch`).
* JavaScript compares objects by identity.  Every user object carries the
  address it was allocated at (`ref`); `!==` on two objects compares addresses.
  An object literal in the source takes the address of the new object as an
  extra argument.
* Only the properties the source reads (`id`, `name`, `email`,
  `company.name`) are modelled.
* Numbers are exact: the page arithmetic is over `Int`, and the quotient under
  `Math.ceil` is a rational number.
-/

namespace UserApp

/-! ## Data model -/

/-- Values found in the `id` property: a number (assigned by the server), a
string (the form starts with `""`), or `undefined` (property absent).  Ids
arrive as JSON, so a number is never `NaN`, and strict equality `===` on these
values is equality of the constructor and payload. -/
inductive Id where
  | num (n : Int)
  | str (s : String)
  | undefined
  deriving DecidableEq

/-- The nested `company` object; only `name` is read. -/
structure Company where
  name : String
  deriving DecidableEq

/-- A user object. `ref` is the identity of the object, not a property. -/
structure User where
  ref : Nat
  id : Id
  name : String
  email : String
  company : Company
  deriving DecidableEq

/-- Result of an awaited HTTP call. -/
inductive Outcome (α : Type) where
  | resolved (data : α)
  | rejected

/-! ## JavaScript library functions used by the source -/

/-- `Array.prototype.slice(start, end)` on integer arguments: a negative index
counts from the end, both indices are clamped to `[0, length]`, and the result
is empty when the clamped end does not exceed the clamped start. -/
def slice {α : Type} (xs : List α) (start stop : Int) : List α :=
  let len : Int := xs.length
  let k : Int := if start < 0 then max (len + start) 0 else min start len
  let final : Int := if stop < 0 then max (len + stop) 0 else min stop len
  (xs.drop k.toNat).take (final - k).toNat

/-- Pieces of a character sequence between the occurrences of `sep`; the
result always has at least one piece. -/
def splitChars (sep : Char) : List Char → List (List Char)
  | [] => [[]]
  | c :: cs =>
    if c = sep then [] :: splitChars sep cs
    else
      match splitChars sep cs with
      | piece :: rest => (c :: piece) :: rest
      | [] => [[c]]

/-- `String.prototype.split(sep)` for a one-character separator. -/
def split (s : String) (sep : Char) : List String :=
  (splitChars sep s.data).map String.mk

/-- The expression `arr[i] || ""`: an absent element (`undefined`) and the
empty string are both falsy and give the right operand. -/
def orEmpty (x : Option String) : String :=
  match x with
  | some v => if v = "" then "" else v
  | none => ""

/-! ## The `App` component -/

namespace App

/-- The `state` field of `App`. `null` is `none`. -/
structure State where
  users : List User
  currentUser : Option User
  error : Option String
  isEditing : Bool
  currentPage : Int
  usersPerPage : Int

/-- The initial value of `state`. -/
def initialState : State :=
  { users := [], currentUser := none, error := none, isEditing := false,
    currentPage := 1, usersPerPage := 5 }

/-- `fetchUsers`: replaces the list with `response.data`, or stores the fetch
error. -/
def fetchUsers (prevState : State) (response : Outcome (List User)) : State :=
  match response with
  | .resolved data => { prevState with users := data }
  | .rejected =>
    { prevState with error := some "Failed to fetch users. Please try again later." }

/-- `handleAddUser`: `response` carries `response.data.id`; `ref` is the
address of the object built by the spread `{ ...user, id: response.data.id }`. -/
def handleAddUser (prevState : State) (user : User) (response : Outcome Id)
    (ref : Nat) : State :=
  match response with
  | .resolved id =>
    { prevState with users := prevState.users ++ [{ user with ref := ref, id := id }] }
  | .rejected =>
    { prevState with error := some "Failed to add user. Please try again." }

/-- `handleEditUser`: the value the `put` call resolves to is discarded. -/
def handleEditUser {α : Type} (prevState : State) (user : User)
    (response : Outcome α) : State :=
  match response with
  | .resolved _ =>
    { prevState with
      users := prevState.users.map (fun u => if u.id = user.id then user else u)
      isEditing := false
      currentUser := none }
  | .rejected =>
    { prevState with error := some "Failed to edit user. Please try again." }

/-- `handleDeleteUser`: the value the `delete` call resolves to is discarded. -/
def handleDeleteUser {α : Type} (prevState : State) (id : Id)
    (response : Outcome α) : State :=
  match response with
  | .resolved _ =>
    { prevState with users := prevState.users.filter (fun user => decide (user.id ≠ id)) }
  | .rejected =>
    { prevState with error := some "Failed to delete user. Please try again." }

/-- `handleEditClick`. -/
def handleEditClick (state : State) (user : User) : State :=
  { state with currentUser := some user, isEditing := true }

/-- The handler `handleFormSubmit` hands the record to. -/
inductive Call where
  | editUser (user : User)
  | addUser (user : User)
  deriving DecidableEq

/-- `handleFormSubmit`: reads `isEditing` when the form is submitted and
starts the matching handler. -/
def handleFormSubmit (state : State) (user : User) : Call :=
  if state.isEditing then .editUser user else .addUser user

/-- The state update of a started handler once its HTTP call has settled. -/
def Call.settle (call : Call) (prevState : State) (response : Outcome Id)
    (ref : Nat) : State :=
  match call with
  | .editUser user => handleEditUser prevState user response
  | .addUser user => handleAddUser prevState user response ref

/-- `handlePageChange`. -/
def handlePageChange (state : State) (pageNumber : Int) : State :=
  { state with currentPage := pageNumber }

/-- What `render` computes and passes down to the child components. -/
structure View where
  error : Option String
  formCurrentUser : Option User
  formIsEditing : Bool
  listUsers : List User
  currentPage : Int
  totalPages : Int

/-- The local `indexOfLastUser` of `render`. -/
def indexOfLastUser (state : State) : Int :=
  state.currentPage * state.usersPerPage

/-- The local `indexOfFirstUser` of `render`. -/
def indexOfFirstUser (state : State) : Int :=
  indexOfLastUser state - state.usersPerPage

/-- The local `currentUsers` of `render`. -/
def currentUsers (state : State) : List User :=
  slice state.users (indexOfFirstUser state) (indexOfLastUser state)

/-- The local `totalPages` of `render`:
`Math.ceil(users.length / usersPerPage)` with the exact quotient. -/
def totalPages (state : State) : Int :=
  ⌈((state.users.length : ℚ) / (state.usersPerPage : ℚ))⌉

/-- `render`, up to markup. -/
def render (state : State) : View :=
  { error := state.error
    formCurrentUser := state.currentUser
    formIsEditing := state.isEditing
    listUsers := currentUsers state
    currentPage := state.currentPage
    totalPages := totalPages state }

end App

/-! ## The `UserForm` component -/

namespace UserForm

/-- The `state` field of `UserForm`. -/
structure State where
  id : Id
  firstName : String
  lastName : String
  email : String
  department : String
  deriving DecidableEq

/-- The initial value of `state`, also the value `handleSubmit` resets to. -/
def emptyState : State :=
  { id := .str "", firstName := "", lastName := "", email := "", department := "" }

/-- The data props `App.render` passes to the form. -/
structure Props where
  currentUser : Option User
  isEditing : Bool

/-- The props `App.render` builds from the state of `App`. -/
def propsOf (app : App.State) : Props :=
  { currentUser := (App.render app).formCurrentUser
    isEditing := (App.render app).formIsEditing }

/-- The test `a !== b` on two values that are `null` or a user object. -/
def notSame (a b : Option User) : Bool :=
  match a, b with
  | none, none => false
  | some x, some y => decide (x.ref ≠ y.ref)
  | _, _ => true

/-- `componentDidUpdate(prevProps)`: copies the current user into the fields
when the prop is an object other than the previous one. -/
def componentDidUpdate (props prevProps : Props) (state : State) : State :=
  match props.currentUser with
  | some user =>
    if notSame props.currentUser prevProps.currentUser then
      { id := user.id
        firstName := ((split user.name ' ')[0]?).getD ""
        lastName := orEmpty (split user.name ' ')[1]?
        email := user.email
        department := user.company.name }
    else state
  | none => state

/-- The `name` attributes of the four inputs the form renders. -/
inductive Field where
  | firstName
  | lastName
  | email
  | department
  deriving DecidableEq

/-- `handleChange` for an event of one of the rendered inputs. -/
def handleChange (state : State) (name : Field) (value : String) : State :=
  match name with
  | .firstName => { state with firstName := value }
  | .lastName => { state with lastName := value }
  | .email => { state with email := value }
  | .department => { state with department := value }

/-- `handleSubmit`: the record handed to `onSubmit` (allocated at `ref`) and
the state after the reset. -/
def handleSubmit (state : State) (ref : Nat) : User × State :=
  ({ ref := ref
     id := state.id
     name := state.firstName ++ " " ++ state.lastName
     email := state.email
     company := { name := state.department } },
   emptyState)

end UserForm

/-! ## The page: both components together -/

/-- The state of the mounted page: the state of `App` and of its `UserForm`. -/
structure Page where
  app : App.State
  form : UserForm.State

namespace Page

/-- A `setState` of `App` re-renders the form with new props, and React then
calls the form's `componentDidUpdate` with the props of the previous render. -/
def afterAppUpdate (page : Page) (app : App.State) : Page :=
  { app := app
    form := UserForm.componentDidUpdate (UserForm.propsOf app) (UserForm.propsOf page.app)
      page.form }

/-- A `setState` of the form re-renders it with the same props, and React
then calls `componentDidUpdate` with those same props as `prevProps`. -/
def afterFormUpdate (page : Page) (form : UserForm.State) : Page :=
  { app := page.app
    form := UserForm.componentDidUpdate (UserForm.propsOf page.app) (UserForm.propsOf page.app)
      form }

/-- A click on the Edit button of the row of `user`. -/
def editClick (page : Page) (user : User) : Page :=
  page.afterAppUpdate (App.handleEditClick page.app user)

/-- A change event of one input of the form. -/
def change (page : Page) (name : UserForm.Field) (value : String) : Page :=
  page.afterFormUpdate (UserForm.handleChange page.form name value)

/-- A run of change events, oldest first. -/
def typing (page : Page) (events : List (UserForm.Field × String)) : Page :=
  events.foldl (fun p e => p.change e.1 e.2) page

/-- A submit event of the form: `handleSubmit` builds the record (at `ref`),
`onSubmit` is `App.handleFormSubmit`, which starts a handler, and the form is
reset.  Returns the page and the started handler. -/
def submit (page : Page) (ref : Nat) : Page × App.Call :=
  (page.afterFormUpdate (UserForm.handleSubmit page.form ref).2,
   App.handleFormSubmit page.app (UserForm.handleSubmit page.form ref).1)

/-- The HTTP call of a started handler settles and the handler updates `App`. -/
def settle (page : Page) (call : App.Call) (response : Outcome Id) (ref : Nat) : Page :=
  page.afterAppUpdate (call.settle page.app response ref)

/-- A submit event followed by the settling of the handler it started. -/
def submitAndSettle (page : Page) (ref : Nat) (response : Outcome Id) (ref2 : Nat) : Page :=
  (page.submit ref).1.settle (page.submit ref).2 response ref2

/-- An edit is begun on `user`, the fields are edited by `typed`, the form is
submitted and the HTTP call of the started handler is rejected. -/
def failedEdit (page : Page) (user : User) (typed : List (UserForm.Field × String))
    (ref ref2 : Nat) : Page :=
  ((page.editClick user).typing typed).submitAndSettle ref .rejected ref2

end Page

/-! ## Properties stated by the specification -/

/-- No two entries of the list have the same `id`. -/
def uniqueIds (users : List User) : Prop :=
  (users.map (fun u => u.id)).Nodup

instance (users : List User) : Decidable (uniqueIds users) := by
  unfold uniqueIds
  infer_instance

/-- The part of a character sequence before the first `sep` (all of it when
there is none). -/
def beforeFirst (sep : Char) (cs : List Char) : List Char :=
  cs.takeWhile (fun c => decide (c ≠ sep))

/-- The part of a character sequence after the first `sep` (empty when there
is none). -/
def afterFirst (sep : Char) (cs : List Char) : List Char :=
  (cs.dropWhile (fun c => decide (c ≠ sep))).drop 1

/-! ## Sample data -/

/-- A user with numeric id `i`. -/
def sampleUser (i : Nat) : User :=
  { ref := i, id := .num i, name := "Jane Doe", email := "jane@x.com",
    company := { name := "Eng" } }

/-- A user whose name has two spaces. -/
def mary : User :=
  { ref := 0, id := .num 3, name := "Mary Ann Smith", email := "mary@x.com",
    company := { name := "Ops" } }

/-- Twelve users with ids 1 to 12. -/
def twelveUsers : List User :=
  (List.range 12).map (fun i => sampleUser (i + 1))

/-- The page state with twelve users, showing page 3. -/
def twelveOnPageThree : App.State :=
  { App.initialState with users := twelveUsers, currentPage := 3 }

/-- The mounted page with twelve users and an empty form. -/
def twelvePage : Page :=
  { app := twelveOnPageThree, form := UserForm.emptyState }

/-! # Theorems -/

/-! ## Splitting a name -/

theorem splitChars_ne_nil (sep : Char) (cs : List Char) : splitChars sep cs ≠ [] := by
  induction cs with
  | nil => simp [splitChars]
  | cons c cs ih =>
    unfold splitChars
    split
    · simp
    · split
      · simp
      · simp

theorem splitChars_cons_ne (sep c : Char) (cs : List Char) (h : c ≠ sep) :
    splitChars sep (c :: cs)
      = (c :: (splitChars sep cs).headI) :: (splitChars sep cs).tail := by
  have hne := splitChars_ne_nil sep cs
  rw [splitChars]
  simp only [h, if_false]
  cases hs : splitChars sep cs with
  | nil => exact absurd hs hne
  | cons piece rest => rfl

theorem splitChars_unfold (sep : Char) (cs : List Char) :
    splitChars sep cs
      = beforeFirst sep cs ::
          (match cs.dropWhile (fun c => decide (c ≠ sep)) with
           | [] => []
           | _ :: rest => splitChars sep rest) := by
  induction cs with
  | nil => simp [splitChars, beforeFirst]
  | cons c cs ih =>
    by_cases h : c = sep
    · subst h
      simp [splitChars, beforeFirst]
    · rw [splitChars_cons_ne sep c cs h, ih]
      simp [beforeFirst, h]

theorem orEmpty_eq (x : Option String) : orEmpty x = x.getD "" := by
  cases x with
  | none => rfl
  | some v =>
    unfold orEmpty
    by_cases h : v = ""
    · simp [h]
    · simp [h]

theorem split_first (s : String) (sep : Char) :
    ((split s sep)[0]?).getD "" = String.mk (beforeFirst sep s.data) := by
  unfold split
  rw [splitChars_unfold]
  simp

theorem split_second (s : String) (sep : Char) :
    orEmpty (split s sep)[1]? = String.mk (beforeFirst sep (afterFirst sep s.data)) := by
  rw [orEmpty_eq]
  unfold split
  rw [splitChars_unfold]
  unfold afterFirst
  cases h : s.data.dropWhile (fun c => decide (c ≠ sep)) with
  | nil => simp [beforeFirst]
  | cons c rest =>
    simp only [List.map_cons, List.getElem?_cons_succ, List.drop_succ_cons, List.drop_zero]
    rw [splitChars_unfold]
    simp

theorem split_at_first (sep : Char) (cs : List Char) (h : sep ∈ cs) :
    cs = beforeFirst sep cs ++ sep :: afterFirst sep cs := by
  induction cs with
  | nil => simp at h
  | cons c cs ih =>
    by_cases hc : c = sep
    · subst hc
      simp [beforeFirst, afterFirst]
    · have hmem : sep ∈ cs := by
        rcases List.mem_cons.mp h with h1 | h1
        · exact absurd h1.symm hc
        · exact h1
      have e := ih hmem
      simp only [beforeFirst, afterFirst] at e ⊢
      simp only [hc, List.takeWhile_cons, List.dropWhile_cons, ne_eq, not_false_eq_true,
        decide_True, if_true, List.cons_append]
      rw [← e]

theorem beforeFirst_of_not_mem (sep : Char) (cs : List Char) (h : sep ∉ cs) :
    beforeFirst sep cs = cs := by
  unfold beforeFirst
  rw [List.takeWhile_eq_self_iff]
  intro c hc
  simp only [ne_eq, decide_eq_true_eq]
  intro e
  exact h (e ▸ hc)

theorem not_mem_afterFirst (sep : Char) (cs : List Char) (h : cs.count sep = 1) :
    sep ∈ cs ∧ sep ∉ afterFirst sep cs := by
  have hmem : sep ∈ cs := by
    rw [← List.count_pos_iff]
    omega
  refine ⟨hmem, ?_⟩
  have e := split_at_first sep cs hmem
  rw [e] at h
  simp only [List.count_append, List.count_cons_self] at h
  rw [← List.count_eq_zero]
  omega

/-! ## The form -/

/-- The state `componentDidUpdate` sets when the current user is a new object. -/
theorem componentDidUpdate_loads (props prevProps : UserForm.Props) (state : UserForm.State)
    (u : User) (hcur : props.currentUser = some u)
    (hnew : UserForm.notSame props.currentUser prevProps.currentUser = true) :
    UserForm.componentDidUpdate props prevProps state
      = { id := u.id
          firstName := String.mk (beforeFirst ' ' u.name.data)
          lastName := String.mk (beforeFirst ' ' (afterFirst ' ' u.name.data))
          email := u.email
          department := u.company.name } := by
  unfold UserForm.componentDidUpdate
  rw [hcur] at hnew ⊢
  simp only [hnew, if_true]
  rw [split_first, split_second]

/-! ## Pagination -/

theorem totalPages_eq_div (state : App.State) (h : state.usersPerPage = 5) :
    App.totalPages state = ((state.users.length : Int) + 4) / 5 := by
  unfold App.totalPages
  rw [h, Int.ceil_eq_iff]
  have h5 : (0 : ℚ) < 5 := by norm_num
  constructor
  · have hz : (((state.users.length : Int) + 4) / 5 - 1) * 5 < (state.users.length : Int) := by
      omega
    have hq : (((((state.users.length : Int) + 4) / 5 : Int) : ℚ) - 1) * 5
        < (state.users.length : ℚ) := by
      exact_mod_cast hz
    push_cast
    rw [lt_div_iff₀ h5]
    exact hq
  · have hz : (state.users.length : Int) ≤ (((state.users.length : Int) + 4) / 5) * 5 := by
      omega
    have hq : (state.users.length : ℚ)
        ≤ (((((state.users.length : Int) + 4) / 5 : Int) : ℚ)) * 5 := by
      exact_mod_cast hz
    push_cast
    rw [div_le_iff₀ h5]
    exact hq

theorem slice_page {α : Type} (xs : List α) (p : Int) (hp : 1 ≤ p) :
    slice xs (p * 5 - 5) (p * 5) = (xs.drop ((p - 1) * 5).toNat).take 5 := by
  unfold slice
  have h1 : ¬ (p * 5 - 5 < 0) := by omega
  have h2 : ¬ (p * 5 < 0) := by omega
  simp only [h1, h2, if_false]
  by_cases hn : (p - 1) * 5 ≤ (xs.length : Int)
  · have e1 : (min (p * 5 - 5) (xs.length : Int)).toNat = ((p - 1) * 5).toNat := by
      congr 1; omega
    rw [e1]
    apply List.ext_getElem?
    intro i
    simp only [List.getElem?_take, List.getElem?_drop]
    by_cases hi : i < 5
    · by_cases hi2 : i < (min (p * 5) ↑xs.length - min (p * 5 - 5) ↑xs.length).toNat
      · simp [hi, hi2]
      · simp only [hi, hi2, if_true, if_false]
        symm
        rw [List.getElem?_eq_none_iff]
        omega
    · have hi2 : ¬ i < (min (p * 5) ↑xs.length - min (p * 5 - 5) ↑xs.length).toNat := by
        omega
      simp [hi, hi2]
  · have e1 : (min (p * 5) ↑xs.length - min (p * 5 - 5) (xs.length : Int)).toNat = 0 := by
      omega
    rw [e1]
    simp only [List.take_zero]
    symm
    rw [List.take_eq_nil_iff]
    right
    rw [List.drop_eq_nil_iff]
    omega

theorem listUsers_eq (state : App.State) (hpp : state.usersPerPage = 5)
    (hp : 1 ≤ state.currentPage) :
    (App.render state).listUsers
      = (state.users.drop ((state.currentPage - 1) * 5).toNat).take 5 := by
  show slice state.users (state.currentPage * state.usersPerPage - state.usersPerPage)
      (state.currentPage * state.usersPerPage) = _
  rw [hpp]
  exact slice_page state.users state.currentPage hp

/-- C1: with `usersPerPage = 5` and a page number `p >= 1`, the slice handed to
the list is, position by position, the users at indices `(p-1)*5 + i` below
`min (p*5) n`, in order; it has `min 5 (n - (p-1)*5)` users when
`p <= totalPages`, and is empty when `p > totalPages`. -/
theorem visible_slice (state : App.State) (hpp : state.usersPerPage = 5)
    (hp : 1 ≤ state.currentPage) :
    (∀ i : Nat, (App.render state).listUsers[i]?
        = if (state.currentPage - 1) * 5 + (i : Int)
              < min (state.currentPage * 5) (state.users.length : Int)
          then state.users[((state.currentPage - 1) * 5).toNat + i]? else none)
    ∧ (state.currentPage ≤ (App.render state).totalPages →
        (((App.render state).listUsers.length : Nat) : Int)
          = min 5 ((state.users.length : Int) - (state.currentPage - 1) * 5))
    ∧ ((App.render state).totalPages < state.currentPage →
        (App.render state).listUsers = []) := by
  have htp : (App.render state).totalPages = ((state.users.length : Int) + 4) / 5 :=
    totalPages_eq_div state hpp
  rw [listUsers_eq state hpp hp, htp]
  refine ⟨?_, ?_, ?_⟩
  · intro i
    simp only [List.getElem?_take, List.getElem?_drop]
    by_cases hi : i < 5
    · by_cases hlt : (state.currentPage - 1) * 5 + (i : Int)
          < min (state.currentPage * 5) (state.users.length : Int)
      · simp [hi, hlt]
      · simp only [hi, hlt, if_true, if_false]
        rw [List.getElem?_eq_none_iff]
        omega
    · have hlt : ¬ ((state.currentPage - 1) * 5 + (i : Int)
          < min (state.currentPage * 5) (state.users.length : Int)) := by omega
      simp [hi, hlt]
  · intro hle
    rw [List.length_take, List.length_drop]
    omega
  · intro hlt
    rw [List.take_eq_nil_iff]
    right
    rw [List.drop_eq_nil_iff]
    omega

/-- Witness for C1: twelve users on page 3. -/
theorem visible_slice_witness :
    twelveOnPageThree.usersPerPage = 5 ∧ 1 ≤ twelveOnPageThree.currentPage
    ∧ (∀ i : Nat, (App.render twelveOnPageThree).listUsers[i]?
        = if (twelveOnPageThree.currentPage - 1) * 5 + (i : Int)
              < min (twelveOnPageThree.currentPage * 5) (twelveOnPageThree.users.length : Int)
          then twelveOnPageThree.users[((twelveOnPageThree.currentPage - 1) * 5).toNat + i]?
          else none)
    ∧ (twelveOnPageThree.currentPage ≤ (App.render twelveOnPageThree).totalPages →
        (((App.render twelveOnPageThree).listUsers.length : Nat) : Int)
          = min 5 ((twelveOnPageThree.users.length : Int)
              - (twelveOnPageThree.currentPage - 1) * 5))
    ∧ ((App.render twelveOnPageThree).totalPages < twelveOnPageThree.currentPage →
        (App.render twelveOnPageThree).listUsers = [])
    ∧ (App.render twelveOnPageThree).listUsers = [sampleUser 11, sampleUser 12] :=
  ⟨rfl, by decide, (visible_slice twelveOnPageThree rfl (by decide)).1,
    (visible_slice twelveOnPageThree rfl (by decide)).2.1,
    (visible_slice twelveOnPageThree rfl (by decide)).2.2, by decide⟩

/-- C2: with `usersPerPage = 5` the page count is the least integer `k` with
`5 * k >= n`, where `n` is the number of users, and it is 0 for the empty
list. -/
theorem totalPages_ceil (state : App.State) (hpp : state.usersPerPage = 5) :
    (state.users.length : Int) ≤ 5 * (App.render state).totalPages
    ∧ (∀ k : Int, (state.users.length : Int) ≤ 5 * k → (App.render state).totalPages ≤ k)
    ∧ (state.users = [] → (App.render state).totalPages = 0) := by
  have htp : (App.render state).totalPages = ((state.users.length : Int) + 4) / 5 :=
    totalPages_eq_div state hpp
  rw [htp]
  refine ⟨by omega, fun k hk => by omega, fun hnil => ?_⟩
  rw [hnil]
  rfl

/-- Witness for C2: twelve users give three pages. -/
theorem totalPages_ceil_witness :
    twelveOnPageThree.usersPerPage = 5 ∧ (App.render twelveOnPageThree).totalPages = 3 := by
  have h := totalPages_ceil twelveOnPageThree rfl
  have hlen : (twelveOnPageThree.users.length : Int) = 12 := by decide
  rw [hlen] at h
  have h3 := h.2.1 3 (by decide)
  have h12 := h.1
  exact ⟨rfl, by omega⟩

/-! ## List handlers of `App` -/

/-- C3: a successful add leaves the list equal to the old list followed by
exactly one new entry, which has the record's name, email and company name and
the id returned by the server. -/
theorem add_appends (state : App.State) (r : User) (i : Id) (ref : Nat) :
    ∃ e : User,
      (App.handleAddUser state r (.resolved i) ref).users = state.users ++ [e]
      ∧ e.id = i ∧ e.name = r.name ∧ e.email = r.email
      ∧ e.company.name = r.company.name :=
  ⟨{ r with ref := ref, id := i }, rfl, rfl, rfl, rfl, rfl⟩

/-- C4: a successful update keeps the length of the list, puts the record at
every position whose entry has the record's id, leaves every other position as
it was, and clears the editing marker. -/
theorem edit_replaces {α : Type} (state : App.State) (r : User) (data : α) :
    (App.handleEditUser state r (.resolved data)).users.length = state.users.length
    ∧ (∀ (i : Nat) (u : User), state.users[i]? = some u →
        (u.id = r.id → (App.handleEditUser state r (.resolved data)).users[i]? = some r)
        ∧ (u.id ≠ r.id → (App.handleEditUser state r (.resolved data)).users[i]? = some u))
    ∧ (App.handleEditUser state r (.resolved data)).isEditing = false
    ∧ (App.handleEditUser state r (.resolved data)).currentUser = none := by
  refine ⟨?_, ?_, rfl, rfl⟩
  · simp [App.handleEditUser]
  · intro i u hu
    simp only [App.handleEditUser, List.getElem?_map, hu, Option.map_some']
    constructor
    · intro h
      simp [h]
    · intro h
      simp [h]

/-- C5: when the call of an update is rejected, the list, the editing flag and
the current user stay as they were (a page in Editing mode stays in Editing
mode) and the stored error is the fixed edit-failure message. -/
theorem edit_failure {α : Type} (state : App.State) (r : User) :
    (App.handleEditUser state r (Outcome.rejected : Outcome α)).users = state.users
    ∧ (App.handleEditUser state r (Outcome.rejected : Outcome α)).isEditing
        = state.isEditing
    ∧ (App.handleEditUser state r (Outcome.rejected : Outcome α)).currentUser
        = state.currentUser
    ∧ (App.handleEditUser state r (Outcome.rejected : Outcome α)).error
        = some "Failed to edit user. Please try again." :=
  ⟨rfl, rfl, rfl, rfl⟩

/-- C6: a successful remove keeps exactly the entries whose id differs from
the removed id, in their order, so that no entry with that id remains, and it
leaves `currentPage` as it was. -/
theorem delete_filters {α : Type} (state : App.State) (x : Id) (data : α) :
    (App.handleDeleteUser state x (.resolved data)).users
        = state.users.filter (fun u => decide (u.id ≠ x))
    ∧ (App.handleDeleteUser state x (.resolved data)).users.Sublist state.users
    ∧ (∀ u : User, u ∈ (App.handleDeleteUser state x (.resolved data)).users
        ↔ u ∈ state.users ∧ u.id ≠ x)
    ∧ (App.handleDeleteUser state x (.resolved data)).currentPage = state.currentPage := by
  refine ⟨rfl, ?_, ?_, rfl⟩
  · exact List.filter_sublist state.users
  · intro u
    simp [App.handleDeleteUser]

/-! ## Uniqueness of ids -/

/-- C9 fails as stated: a list with one user of id 11 has unique ids, and after
a successful add for which the server returns id 11 it has not. -/
theorem add_duplicate_id :
    uniqueIds ({ App.initialState with users := [sampleUser 11] }).users
    ∧ ¬ uniqueIds (App.handleAddUser { App.initialState with users := [sampleUser 11] }
          (sampleUser 0) (.resolved (.num 11)) 1).users := by
  constructor
  · decide
  · decide

/-- C9 amended: when the id returned by the server is not the id of any entry,
a successful add of any record keeps the ids of the list unique. -/
theorem add_keeps_unique (state : App.State) (r : User) (i : Id) (ref : Nat)
    (huniq : uniqueIds state.users) (hfresh : ∀ u ∈ state.users, u.id ≠ i) :
    uniqueIds (App.handleAddUser state r (.resolved i) ref).users := by
  unfold uniqueIds at *
  simp only [App.handleAddUser, List.map_append, List.map_cons, List.map_nil]
  rw [List.nodup_append]
  refine ⟨huniq, List.nodup_singleton _, ?_⟩
  intro a ha hb
  rw [List.mem_singleton] at hb
  rw [List.mem_map] at ha
  obtain ⟨u, hu, hua⟩ := ha
  exact hfresh u hu (hua.trans hb)

/-- Witness for the amended C9: one user of id 11, the server returns 12. -/
theorem add_keeps_unique_witness :
    uniqueIds ({ App.initialState with users := [sampleUser 11] }).users
    ∧ (∀ u ∈ ({ App.initialState with users := [sampleUser 11] }).users, u.id ≠ .num 12)
    ∧ uniqueIds (App.handleAddUser { App.initialState with users := [sampleUser 11] }
          (sampleUser 0) (.resolved (.num 12)) 1).users :=
  ⟨by decide, by decide,
    add_keeps_unique { App.initialState with users := [sampleUser 11] } (sampleUser 0)
      (.num 12) 1 (by decide) (by decide)⟩

/-- C8 fails as stated: for the name "Mary Ann Smith" the loaded `lastName` is
"Ann", while the part of the name after the first space is "Ann Smith"; and
when the current user is the object of the previous render, nothing is loaded
and `firstName` stays empty, while the part before the first space is "Mary". -/
theorem lastName_drops_tail :
    (UserForm.componentDidUpdate { currentUser := some mary, isEditing := true }
        { currentUser := none, isEditing := false } UserForm.emptyState).lastName = "Ann"
    ∧ String.mk (afterFirst ' ' mary.name.data) = "Ann Smith"
    ∧ (UserForm.componentDidUpdate { currentUser := some mary, isEditing := true }
        { currentUser := none, isEditing := false } UserForm.emptyState).lastName
        ≠ String.mk (afterFirst ' ' mary.name.data)
    ∧ (UserForm.componentDidUpdate { currentUser := some mary, isEditing := true }
        { currentUser := some mary, isEditing := true } UserForm.emptyState).firstName = ""
    ∧ String.mk (beforeFirst ' ' mary.name.data) = "Mary"
    ∧ (UserForm.componentDidUpdate { currentUser := some mary, isEditing := true }
        { currentUser := some mary, isEditing := true } UserForm.emptyState).firstName
        ≠ String.mk (beforeFirst ' ' mary.name.data) := by
  refine ⟨by decide, by decide, by decide, by decide, by decide, by decide⟩

/-- C8 amended: for a current user `u`, when `u` is an object other than the
current user of the previous render, `firstName` is the part of the name
before the first space and `lastName` is the part after the first space up to
the next space (empty when the name has no space, all of the part after the
first space when that part has no space); when `u` is the object of the
previous render, the state of the form is left as it was. -/
theorem name_split (props prevProps : UserForm.Props) (state : UserForm.State) (u : User)
    (hcur : props.currentUser = some u) :
    (UserForm.notSame props.currentUser prevProps.currentUser = true →
      (UserForm.componentDidUpdate props prevProps state).firstName
          = String.mk (beforeFirst ' ' u.name.data)
      ∧ (UserForm.componentDidUpdate props prevProps state).lastName
          = String.mk (beforeFirst ' ' (afterFirst ' ' u.name.data))
      ∧ (' ' ∉ u.name.data →
          (UserForm.componentDidUpdate props prevProps state).lastName = "")
      ∧ (' ' ∉ afterFirst ' ' u.name.data →
          (UserForm.componentDidUpdate props prevProps state).lastName
            = String.mk (afterFirst ' ' u.name.data)))
    ∧ (UserForm.notSame props.currentUser prevProps.currentUser = false →
        UserForm.componentDidUpdate props prevProps state = state) := by
  constructor
  · intro hnew
    rw [componentDidUpdate_loads props prevProps state u hcur hnew]
    refine ⟨rfl, rfl, ?_, ?_⟩
    · intro hno
      have h1 : beforeFirst ' ' u.name.data = u.name.data := beforeFirst_of_not_mem _ _ hno
      have h2 : afterFirst ' ' u.name.data = [] := by
        unfold afterFirst
        unfold beforeFirst at h1
        rw [List.takeWhile_eq_self_iff] at h1
        have h3 : u.name.data.dropWhile (fun c => decide (c ≠ ' ')) = [] := by
          rw [List.dropWhile_eq_nil_iff]
          exact h1
        rw [h3]
        rfl
      show String.mk (beforeFirst ' ' (afterFirst ' ' u.name.data)) = ""
      rw [h2]
      rfl
    · intro hno
      show String.mk (beforeFirst ' ' (afterFirst ' ' u.name.data)) = _
      rw [beforeFirst_of_not_mem _ _ hno]
  · intro hsame
    unfold UserForm.componentDidUpdate
    rw [hcur] at hsame ⊢
    simp [hsame]

/-- Witness for the amended C8: the user named "Mary Ann Smith", as a new
object and as the object of the previous render. -/
theorem name_split_witness :
    (UserForm.componentDidUpdate { currentUser := some mary, isEditing := true }
        { currentUser := none, isEditing := false } UserForm.emptyState).firstName = "Mary"
    ∧ (UserForm.componentDidUpdate { currentUser := some mary, isEditing := true }
        { currentUser := none, isEditing := false } UserForm.emptyState).lastName = "Ann"
    ∧ UserForm.componentDidUpdate { currentUser := some mary, isEditing := true }
        { currentUser := some mary, isEditing := true } UserForm.emptyState
        = UserForm.emptyState := by
  have h := (name_split { currentUser := some mary, isEditing := true }
    { currentUser := none, isEditing := false } UserForm.emptyState mary rfl).1 rfl
  have h2 := (name_split { currentUser := some mary, isEditing := true }
    { currentUser := some mary, isEditing := true } UserForm.emptyState mary rfl).2 (by decide)
  exact ⟨h.1.trans (by decide), h.2.1.trans (by decide), h2⟩

/-- C7 fails as stated: "Jane Doe" has exactly one space, but when the current
user is the object of the previous render the form is not loaded, and the
submitted record has the name " " and the id `""`.  The page reaches this
state when an update of the user is rejected and the Edit button of the same
row is clicked again before the submit. -/
theorem round_trip_without_load :
    (sampleUser 1).name.data.count ' ' = 1
    ∧ (UserForm.handleSubmit
        (UserForm.componentDidUpdate { currentUser := some (sampleUser 1), isEditing := true }
          { currentUser := some (sampleUser 1), isEditing := true } UserForm.emptyState)
        99).1.name = " "
    ∧ (UserForm.handleSubmit
        (UserForm.componentDidUpdate { currentUser := some (sampleUser 1), isEditing := true }
          { currentUser := some (sampleUser 1), isEditing := true } UserForm.emptyState)
        99).1.name ≠ (sampleUser 1).name
    ∧ (UserForm.handleSubmit
        ((twelvePage.failedEdit (sampleUser 1) [] 100 101).editClick (sampleUser 1)).form
        102).1.name ≠ (sampleUser 1).name
    ∧ (UserForm.handleSubmit
        ((twelvePage.failedEdit (sampleUser 1) [] 100 101).editClick (sampleUser 1)).form
        102).1.id ≠ (sampleUser 1).id := by
  refine ⟨by decide, by decide, by decide, by decide, by decide⟩

/-- C7 amended: for a user whose name has exactly one space and who is, as the
current user, an object other than the current user of the previous render,
loading the user into the form and submitting without a change gives a record
with the user's id, name, email and company name. -/
theorem edit_round_trip (props prevProps : UserForm.Props) (state : UserForm.State)
    (u : User) (ref : Nat) (hcur : props.currentUser = some u)
    (hnew : UserForm.notSame props.currentUser prevProps.currentUser = true)
    (hone : u.name.data.count ' ' = 1) :
    (UserForm.handleSubmit (UserForm.componentDidUpdate props prevProps state) ref).1.id = u.id
    ∧ (UserForm.handleSubmit (UserForm.componentDidUpdate props prevProps state) ref).1.name
        = u.name
    ∧ (UserForm.componentDidUpdate props prevProps state).firstName ++ " "
        ++ (UserForm.componentDidUpdate props prevProps state).lastName = u.name
    ∧ (UserForm.handleSubmit (UserForm.componentDidUpdate props prevProps state) ref).1.email
        = u.email
    ∧ (UserForm.handleSubmit (UserForm.componentDidUpdate props prevProps state)
          ref).1.company.name = u.company.name := by
  rw [componentDidUpdate_loads props prevProps state u hcur hnew]
  obtain ⟨hmem, hno⟩ := not_mem_afterFirst ' ' u.name.data hone
  have hname : String.mk (beforeFirst ' ' u.name.data) ++ " "
      ++ String.mk (beforeFirst ' ' (afterFirst ' ' u.name.data)) = u.name := by
    apply String.ext
    rw [beforeFirst_of_not_mem _ _ hno]
    simp only [String.data_append]
    have e := split_at_first ' ' u.name.data hmem
    conv_rhs => rw [e]
    simp
  exact ⟨rfl, hname, hname, rfl, rfl⟩

/-- Witness for the amended C7: the user named "Jane Doe", loaded as a new
object (the previous current user is `null`). -/
theorem edit_round_trip_witness :
    (sampleUser 7).name.data.count ' ' = 1
    ∧ UserForm.notSame (some (sampleUser 7)) none = true
    ∧ (UserForm.handleSubmit
        (UserForm.componentDidUpdate { currentUser := some (sampleUser 7), isEditing := true }
          { currentUser := none, isEditing := false } UserForm.emptyState) 99).1.id = .num 7
    ∧ (UserForm.handleSubmit
        (UserForm.componentDidUpdate { currentUser := some (sampleUser 7), isEditing := true }
          { currentUser := none, isEditing := false } UserForm.emptyState) 99).1.name
        = "Jane Doe"
    ∧ (UserForm.componentDidUpdate { currentUser := some (sampleUser 7), isEditing := true }
          { currentUser := none, isEditing := false } UserForm.emptyState).firstName ++ " "
        ++ (UserForm.componentDidUpdate { currentUser := some (sampleUser 7), isEditing := true }
          { currentUser := none, isEditing := false } UserForm.emptyState).lastName
        = "Jane Doe"
    ∧ (UserForm.handleSubmit
        (UserForm.componentDidUpdate { currentUser := some (sampleUser 7), isEditing := true }
          { currentUser := none, isEditing := false } UserForm.emptyState) 99).1.email
        = "jane@x.com"
    ∧ (UserForm.handleSubmit
        (UserForm.componentDidUpdate { currentUser := some (sampleUser 7), isEditing := true }
          { currentUser := none, isEditing := false } UserForm.emptyState) 99).1.company.name
        = "Eng" :=
  ⟨by decide, rfl,
    edit_round_trip { currentUser := some (sampleUser 7), isEditing := true }
      { currentUser := none, isEditing := false } UserForm.emptyState (sampleUser 7) 99 rfl rfl
      (by decide)⟩

/-! ## The page after a failed update -/

theorem notSame_self (a : Option User) : UserForm.notSame a a = false := by
  cases a with
  | none => rfl
  | some x => simp [UserForm.notSame]

theorem componentDidUpdate_same (props prevProps : UserForm.Props) (state : UserForm.State)
    (h : prevProps.currentUser = props.currentUser) :
    UserForm.componentDidUpdate props prevProps state = state := by
  unfold UserForm.componentDidUpdate
  rw [h, notSame_self]
  cases props.currentUser with
  | none => rfl
  | some u => simp

theorem afterFormUpdate_eq (page : Page) (form : UserForm.State) :
    page.afterFormUpdate form = { app := page.app, form := form } := by
  unfold Page.afterFormUpdate
  rw [componentDidUpdate_same _ _ _ rfl]

theorem typing_app (events : List (UserForm.Field × String)) (page : Page) :
    (page.typing events).app = page.app := by
  induction events generalizing page with
  | nil => rfl
  | cons e es ih =>
    show (Page.typing (page.change e.1 e.2) es).app = page.app
    rw [ih]
    unfold Page.change
    rw [afterFormUpdate_eq]

theorem typing_id (events : List (UserForm.Field × String)) (page : Page) :
    (page.typing events).form.id = page.form.id := by
  induction events generalizing page with
  | nil => rfl
  | cons e es ih =>
    show (Page.typing (page.change e.1 e.2) es).form.id = page.form.id
    rw [ih]
    unfold Page.change
    rw [afterFormUpdate_eq]
    cases e.1 <;> rfl

theorem submit_eq (page : Page) (ref : Nat) :
    page.submit ref
      = ({ app := page.app, form := UserForm.emptyState },
         App.handleFormSubmit page.app (UserForm.handleSubmit page.form ref).1) := by
  unfold Page.submit
  rw [afterFormUpdate_eq]
  rfl

theorem failedEdit_eq (page : Page) (u : User) (typed : List (UserForm.Field × String))
    (ref ref2 : Nat) :
    page.failedEdit u typed ref ref2
      = { app := { page.app with
                   currentUser := some u, isEditing := true,
                   error := some "Failed to edit user. Please try again." }
          form := UserForm.emptyState } := by
  unfold Page.failedEdit Page.submitAndSettle
  rw [submit_eq, typing_app]
  have happ : (page.editClick u).app = App.handleEditClick page.app u := rfl
  rw [happ]
  show Page.settle _ (App.Call.editUser _) _ _ = _
  unfold Page.settle Page.afterAppUpdate
  rw [componentDidUpdate_same _ _ _ (by rfl)]
  rfl

/-- C10: after an edit was begun and submitted and its update call was
rejected, the form is reset (its id is the empty string) while `isEditing` is
still true; after any field changes the next submit starts `handleEditUser`
with a record whose id is the empty string; and when that update succeeds and
no entry has the empty string as id, the list is the one before the submit. -/
theorem stale_editing_mode (page : Page) (u : User)
    (typed typed2 : List (UserForm.Field × String)) (ref ref2 ref3 ref4 : Nat)
    (data : Id) :
    (page.failedEdit u typed ref ref2).form = UserForm.emptyState
    ∧ (page.failedEdit u typed ref ref2).app.isEditing = true
    ∧ (((page.failedEdit u typed ref ref2).typing typed2).submit ref3).2
        = .editUser (UserForm.handleSubmit
            ((page.failedEdit u typed ref ref2).typing typed2).form ref3).1
    ∧ (UserForm.handleSubmit
        ((page.failedEdit u typed ref ref2).typing typed2).form ref3).1.id = .str ""
    ∧ ((∀ x ∈ (page.failedEdit u typed ref ref2).app.users, x.id ≠ .str "") →
        (((page.failedEdit u typed ref ref2).typing typed2).submitAndSettle ref3
            (.resolved data) ref4).app.users
          = (page.failedEdit u typed ref ref2).app.users) := by
  have hid : ((page.failedEdit u typed ref ref2).typing typed2).form.id = .str "" := by
    rw [typing_id, failedEdit_eq]
    rfl
  have happ : ((page.failedEdit u typed ref ref2).typing typed2).app
      = (page.failedEdit u typed ref ref2).app := typing_app _ _
  have hedit : (page.failedEdit u typed ref ref2).app.isEditing = true := by
    rw [failedEdit_eq]
  refine ⟨by rw [failedEdit_eq], hedit, ?_, hid, ?_⟩
  · rw [submit_eq, happ]
    unfold App.handleFormSubmit
    rw [hedit]
    rfl
  · intro hno
    unfold Page.submitAndSettle
    rw [submit_eq, happ]
    unfold App.handleFormSubmit
    rw [hedit]
    show List.map _ (page.failedEdit u typed ref ref2).app.users = _
    conv_rhs => rw [← List.map_id (page.failedEdit u typed ref ref2).app.users]
    apply List.map_congr_left
    intro x hx
    have hne : x.id ≠ (UserForm.handleSubmit
        ((page.failedEdit u typed ref ref2).typing typed2).form ref3).1.id := by
      rw [show (UserForm.handleSubmit
        ((page.failedEdit u typed ref ref2).typing typed2).form ref3).1.id
          = ((page.failedEdit u typed ref ref2).typing typed2).form.id from rfl, hid]
      exact hno x hx
    simp [hne]

/-- Witness for C10: an edit of the first of twelve users fails, a new name is
typed and submitted, and the list stays the twelve users. -/
theorem stale_editing_mode_witness :
    (∀ x ∈ (twelvePage.failedEdit (sampleUser 1) [] 100 101).app.users, x.id ≠ .str "")
    ∧ (((twelvePage.failedEdit (sampleUser 1) [] 100 101).typing
          [(.firstName, "John"), (.lastName, "Roe"), (.email, "john@x.com"),
           (.department, "Ops")]).submitAndSettle 102 (.resolved (.num 1)) 103).app.users
        = twelveUsers :=
  ⟨by decide,
    (stale_editing_mode twelvePage (sampleUser 1) []
      [(.firstName, "John"), (.lastName, "Roe"), (.email, "john@x.com"), (.department, "Ops")]
      100 101 102 103 (.num 1)).2.2.2.2 (by decide)⟩

end UserApp
